import Mathlib

/-!
# Verification of the LinkedIn opportunity agent (`linkedin_agent.py`)

Shallow embedding of the opportunity scoring engine. Text is modelled as a
list of Unicode codepoints (`List Nat`); Python float arithmetic on the
confidence scores is modelled with exact rationals (`ℚ`), which is faithful
here because every comparison in the program pits a score of the form
`k/27`, `k/31`, `k/34` or `k/28` against the thresholds `0.3` and `0.2`,
and all of those differ by far more than any double-rounding error.
Character classes (`\s`, `\w`, `\d`, lowercasing) are modelled over ASCII,
the alphabet of all the program's lexicons and of the inputs of interest.
-/

/-- Text as a list of Unicode codepoints. -/
abbrev Text := List Nat

/-- Turn a Lean string literal into its codepoint list (used only to write
concrete data such as lexicon entries and test posts). -/
def strLit (s : String) : Text := s.toList.map Char.toNat

/-- Python's substring containment `needle in haystack`. -/
def strIn (needle : Text) : Text → Bool
  | [] => needle.isEmpty
  | c :: rest => needle.isPrefixOf (c :: rest) || strIn needle rest

/-! ## Text normalizer (`preprocess_text`) -/

/-- Lowercase one codepoint (ASCII `str.lower`). -/
def pyLowerChar (c : Nat) : Nat := if 65 ≤ c ∧ c ≤ 90 then c + 32 else c

/-- `text.lower()`. -/
def pyLower (t : Text) : Text := t.map pyLowerChar

/-- Python regex `\s` over ASCII: space, tab, newline, vertical tab, form
feed, carriage return. -/
def pySpaceB (c : Nat) : Bool :=
  c = 32 || c = 9 || c = 10 || c = 11 || c = 12 || c = 13

theorem length_dropWhile_le (p : Nat → Bool) (l : Text) :
    (l.dropWhile p).length ≤ l.length := by
  induction l with
  | nil => simp [List.dropWhile]
  | cons a l ih =>
    simp only [List.dropWhile, List.length_cons]
    split
    · exact Nat.le_succ_of_le ih
    · simp

/-- Worker for whitespace collapsing; the flag records whether the previous
character was whitespace (i.e. we are inside a run already emitted as one
space). -/
def collapseGo (prevWs : Bool) : Text → Text
  | [] => []
  | c :: rest =>
    if pySpaceB c then
      if prevWs then collapseGo true rest else 32 :: collapseGo true rest
    else c :: collapseGo false rest

/-- `re.sub(r'\s+', ' ', text)`: replace every maximal whitespace run by a
single space. -/
def collapseWs (t : Text) : Text := collapseGo false t

/-- The character class of the URL regex body
`(?:[a-zA-Z]|[0-9]|[$-_@.&+]|[!*\(\),]|(?:%[0-9a-fA-F][0-9a-fA-F]))`:
`[$-_]` is the codepoint range 36–95 (which subsumes the digits, uppercase
letters, `@.&+`, `*(),` and `%`, making the percent-escape alternative
redundant), so the union is lowercase letters, the range 36–95, and `!`. -/
def urlBodyChar (c : Nat) : Bool :=
  (97 ≤ c && c ≤ 122) || (36 ≤ c && c ≤ 95) || c = 33

/-- Try to match `http[s]?://<body>+` at the start of `t`; on success return
the remainder after the (greedy) match. -/
def tryUrl (t : Text) : Option Text :=
  match (if (strLit "https://").isPrefixOf t then some (t.drop 8)
         else if (strLit "http://").isPrefixOf t then some (t.drop 7)
         else none : Option Text) with
  | none => none
  | some [] => none
  | some (c :: cs) =>
    if urlBodyChar c then some ((c :: cs).dropWhile urlBodyChar) else none

/-- Worker for URL deletion, with a fuel bound.  Each successful match
consumes at least eight characters and each failure advances one character,
so fuel equal to the text length never runs out. -/
def removeUrlsGo : Nat → Text → Text
  | 0, t => t
  | _ + 1, [] => []
  | fuel + 1, c :: rest =>
    match tryUrl (c :: rest) with
    | some r => removeUrlsGo fuel r
    | none => c :: removeUrlsGo fuel rest

/-- `re.sub(url_regex, '', text)`: delete every URL match, scanning left to
right, resuming after each match. -/
def removeUrls (t : Text) : Text := removeUrlsGo t.length t

/-- Python regex `\w` over ASCII: letters, digits, underscore. -/
def wordChar (c : Nat) : Bool :=
  (48 ≤ c && c ≤ 57) || (65 ≤ c && c ≤ 90) || (97 ≤ c && c ≤ 122) || c = 95

/-- `re.sub(r'#(\w+)', r'\1', text)`: drop each `#` that is immediately
followed by a word character (the word itself is kept). -/
def removeHash : Text → Text
  | [] => []
  | [c] => [c]
  | c :: d :: rest =>
    if c = 35 && wordChar d then removeHash (d :: rest)
    else c :: removeHash (d :: rest)

/-- `text.strip()` (ASCII whitespace). -/
def pyStrip (t : Text) : Text :=
  ((t.dropWhile pySpaceB).reverse.dropWhile pySpaceB).reverse

/-- `LinkedInOpportunityAgent.preprocess_text`: lowercase, collapse
whitespace, remove URLs, unwrap hashtags, strip. -/
def preprocess_text (text : Text) : Text :=
  pyStrip (removeHash (removeUrls (collapseWs (pyLower text))))

/-! ## Data model -/

/-- The `OpportunityType` enum, in declaration order. -/
inductive OpportunityType where
  | DATA_INTEGRATION
  | DATA_VISUALIZATION
  | WEB_DEVELOPMENT
  | APP_DEVELOPMENT
  | MIXED
deriving DecidableEq

/-- The `UrgencyLevel` enum. -/
inductive UrgencyLevel where
  | LOW
  | MEDIUM
  | HIGH
  | URGENT
deriving DecidableEq

/-- The `OpportunityScore` dataclass (confidence as exact rational). -/
structure OpportunityScore where
  opportunity_type : OpportunityType
  confidence_score : ℚ
  urgency_level : UrgencyLevel
  key_indicators : List Text
  extracted_requirements : List Text
deriving DecidableEq

/-- A category's keyword lexicon: primary (weight 2) and secondary
(weight 1) phrase lists. -/
structure KeywordSet where
  primary : List Text
  secondary : List Text
deriving DecidableEq

/-- The `DATA_INTEGRATION` lexicon. -/
def di_keywords : KeywordSet :=
  { primary := [strLit "data integration", strLit "data pipeline",
      strLit "etl", strLit "data migration", strLit "api integration",
      strLit "database sync", strLit "data warehousing",
      strLit "data consolidation", strLit "system integration",
      strLit "data flow"]
    secondary := [strLit "connect systems", strLit "merge data",
      strLit "automate data", strLit "real-time data", strLit "data sync",
      strLit "import data", strLit "export data"] }

/-- The `DATA_VISUALIZATION` lexicon. -/
def dv_keywords : KeywordSet :=
  { primary := [strLit "data visualization", strLit "dashboard",
      strLit "reporting", strLit "analytics", strLit "charts",
      strLit "graphs", strLit "business intelligence", strLit "bi tool",
      strLit "data analysis", strLit "metrics", strLit "kpi dashboard"]
    secondary := [strLit "visualize data", strLit "show data",
      strLit "data insights", strLit "performance tracking",
      strLit "report automation", strLit "tableau", strLit "power bi",
      strLit "looker", strLit "data studio"] }

/-- The `WEB_DEVELOPMENT` lexicon. -/
def web_keywords : KeywordSet :=
  { primary := [strLit "website", strLit "web development",
      strLit "web app", strLit "web application", strLit "frontend",
      strLit "backend", strLit "full stack", strLit "responsive design",
      strLit "web portal", strLit "landing page", strLit "e-commerce"]
    secondary := [strLit "build website", strLit "create site",
      strLit "web solution", strLit "online presence",
      strLit "web platform", strLit "cms", strLit "wordpress",
      strLit "react", strLit "angular", strLit "vue", strLit "django",
      strLit "flask"] }

/-- The `APP_DEVELOPMENT` lexicon. -/
def app_keywords : KeywordSet :=
  { primary := [strLit "mobile app", strLit "app development",
      strLit "ios app", strLit "android app",
      strLit "application development", strLit "native app",
      strLit "cross platform", strLit "flutter", strLit "react native",
      strLit "swift", strLit "kotlin"]
    secondary := [strLit "build app", strLit "create application",
      strLit "mobile solution", strLit "app store", strLit "play store",
      strLit "mobile platform"] }

/-- `self.keywords`, in dict insertion order. -/
def keywords : List (OpportunityType × KeywordSet) :=
  [(.DATA_INTEGRATION, di_keywords), (.DATA_VISUALIZATION, dv_keywords),
   (.WEB_DEVELOPMENT, web_keywords), (.APP_DEVELOPMENT, app_keywords)]

/-- `self.help_indicators`. -/
def help_indicators : List Text :=
  [strLit "looking for", strLit "need help", strLit "seeking",
   strLit "require", strLit "want to hire", strLit "need assistance",
   strLit "help needed", strLit "recommendations for", strLit "anyone know",
   strLit "suggestions for", strLit "advice on", strLit "expertise in",
   strLit "consultant", strLit "freelancer", strLit "agency",
   strLit "developer", strLit "specialist", strLit "outsource",
   strLit "contract", strLit "project", strLit "budget for",
   strLit "quote for"]

/-- The urgent-tier urgency phrases. -/
def urgent_list : List Text :=
  [strLit "urgent", strLit "asap", strLit "immediately", strLit "rush",
   strLit "emergency"]

/-- The high-tier urgency phrases. -/
def high_list : List Text :=
  [strLit "soon", strLit "quickly", strLit "fast", strLit "priority",
   strLit "deadline"]

/-- The medium-tier urgency phrases. -/
def medium_list : List Text :=
  [strLit "next month", strLit "few weeks", strLit "planning",
   strLit "upcoming"]

/-- The low-tier urgency phrases. -/
def low_list : List Text :=
  [strLit "future", strLit "eventually", strLit "considering",
   strLit "thinking about"]

/-- `self.urgency_indicators`, in dict insertion order. -/
def urgency_indicators : List (UrgencyLevel × List Text) :=
  [(.URGENT, urgent_list), (.HIGH, high_list), (.MEDIUM, medium_list),
   (.LOW, low_list)]

/-! ## Detectors and scorer -/

/-- `detect_help_seeking`: matched phrases in lexicon order, and whether any
matched. -/
def detect_help_seeking (text : Text) : Bool × List Text :=
  let found_indicators := help_indicators.filter (fun ind => strIn ind text)
  (decide (0 < found_indicators.length), found_indicators)

/-- One category's confidence: weighted match ratio clamped by
`min(..., 1.0)`, or `0.0` for an empty lexicon. -/
def score_for (kw : KeywordSet) (text : Text) : ℚ :=
  let primary_matches := kw.primary.countP (fun k => strIn k text)
  let secondary_matches := kw.secondary.countP (fun k => strIn k text)
  let total_score := primary_matches * 2 + secondary_matches
  let max_possible := kw.primary.length * 2 + kw.secondary.length
  if 0 < max_possible then min ((total_score : ℚ) / (max_possible : ℚ)) 1
  else 0

/-- `calculate_opportunity_scores`: per-category confidences, in dict
order. -/
def calculate_opportunity_scores (text : Text) : List (OpportunityType × ℚ) :=
  keywords.map (fun pr => (pr.1, score_for pr.2 text))

/-- `detect_urgency` over an explicit tier table (the source iterates the
`urgency_indicators` dict and returns on the first matching phrase). -/
def detect_urgency_table (tbl : List (UrgencyLevel × List Text))
    (text : Text) : UrgencyLevel :=
  match tbl.find? (fun pr => pr.2.any (fun ind => strIn ind text)) with
  | some pr => pr.1
  | none => .MEDIUM

/-- `detect_urgency`. -/
def detect_urgency (text : Text) : UrgencyLevel :=
  detect_urgency_table urgency_indicators text

/-! ## Requirement extractor (`extract_requirements`)

The six technology patterns are alternations of literals (with `node\.?js`
expanded, greedily, to `node.js` then `nodejs`); `re.findall` scans left to
right, at each position trying the alternatives in written order, and
resumes after the end of each match.  All matching is case-insensitive
(`re.IGNORECASE`), modelled by lowercasing the text character before
comparison.  The scanners carry a fuel argument (initialised to the text
length) for termination; every pattern here consumes at least one character
per match, so the fuel never runs out. -/

/-- Case-insensitive literal-prefix test (`lit` is lowercase). -/
def ciPrefix : Text → Text → Bool
  | [], _ => true
  | _ :: _, [] => false
  | l :: ls, c :: cs => (pyLowerChar c = l) && ciPrefix ls cs

/-- `re.findall` for an ordered alternation of literals; returns the matched
slices of the text. -/
def scanLits (lits : List Text) : Nat → Text → List Text
  | 0, _ => []
  | _ + 1, [] => []
  | fuel + 1, c :: rest =>
    match lits.find? (fun l => ciPrefix l (c :: rest)) with
    | some l =>
      (c :: rest).take l.length ::
        scanLits lits fuel ((c :: rest).drop l.length)
    | none => scanLits lits fuel rest

/-- The six `tech_patterns`, each as its ordered list of alternatives. -/
def tech_patterns : List (List Text) :=
  [[strLit "python", strLit "java", strLit "javascript", strLit "react",
    strLit "angular", strLit "vue", strLit "node.js", strLit "nodejs",
    strLit "django", strLit "flask", strLit "spring"],
   [strLit "sql", strLit "mysql", strLit "postgresql", strLit "mongodb",
    strLit "oracle", strLit "elasticsearch"],
   [strLit "aws", strLit "azure", strLit "gcp", strLit "google cloud",
    strLit "cloud"],
   [strLit "tableau", strLit "power bi", strLit "looker", strLit "qlik",
    strLit "grafana"],
   [strLit "api", strLit "rest", strLit "graphql", strLit "microservices"],
   [strLit "mobile", strLit "ios", strLit "android", strLit "flutter",
    strLit "react native"]]

/-- Python regex `\d` over ASCII. -/
def digitChar (c : Nat) : Bool := 48 ≤ c && c ≤ 57

/-- `[\d,]`. -/
def digitComma (c : Nat) : Bool := digitChar c || c = 44

/-- `str.title()` over ASCII: uppercase a letter not preceded by a letter,
lowercase the rest. -/
def pyTitleGo (prevAlpha : Bool) : Text → Text
  | [] => []
  | c :: rest =>
    if (65 ≤ c && c ≤ 90) || (97 ≤ c && c ≤ 122) then
      (if prevAlpha then pyLowerChar c
       else if 97 ≤ c ∧ c ≤ 122 then c - 32 else c) :: pyTitleGo true rest
    else c :: pyTitleGo false rest

/-- `match.title()`. -/
def pyTitle (t : Text) : Text := pyTitleGo false t

/-- Generic `re.findall` driver for a matcher that returns the matched slice
and the remainder. -/
def scanWith (m : Text → Option (Text × Text)) : Nat → Text → List Text
  | 0, _ => []
  | _ + 1, [] => []
  | fuel + 1, c :: rest =>
    match m (c :: rest) with
    | some (mt, r) => mt :: scanWith m fuel r
    | none => scanWith m fuel rest

/-- First budget alternative `\$[\d,]+(?:\.\d{2})?`. -/
def matchBudgetDollar : Text → Option (Text × Text)
  | 36 :: r =>
    let ds := r.takeWhile digitComma
    if ds.isEmpty then none
    else
      match r.dropWhile digitComma with
      | 46 :: a :: b :: rest =>
        if digitChar a && digitChar b then
          some (36 :: ds ++ [46, a, b], rest)
        else some (36 :: ds, 46 :: a :: b :: rest)
      | r2 => some (36 :: ds, r2)
  | _ => none

/-- Second budget alternative `\d+k?\s*(?:budget|dollar|usd)`
(case-insensitively, so `k` may be `K`). -/
def matchBudgetNum (t : Text) : Option (Text × Text) :=
  let ds := t.takeWhile digitChar
  if ds.isEmpty then none
  else
    let r := t.dropWhile digitChar
    let kn : Text × Text :=
      match r with
      | c :: rest => if c = 107 || c = 75 then ([c], rest) else ([], r)
      | [] => ([], [])
    let sp := kn.2.takeWhile pySpaceB
    let r3 := kn.2.dropWhile pySpaceB
    match [strLit "budget", strLit "dollar",
           strLit "usd"].find? (fun l => ciPrefix l r3) with
    | some l => some (ds ++ kn.1 ++ sp ++ r3.take l.length, r3.drop l.length)
    | none => none

/-- The full budget pattern: the two alternatives in written order. -/
def matchBudget (t : Text) : Option (Text × Text) :=
  match matchBudgetDollar t with
  | some p => some p
  | none => matchBudgetNum t

/-- `\d+\s*(?:days?|weeks?|months?|hours?)` with each `s?` expanded
greedily. -/
def matchTimeline (t : Text) : Option (Text × Text) :=
  let ds := t.takeWhile digitChar
  if ds.isEmpty then none
  else
    let r := t.dropWhile digitChar
    let sp := r.takeWhile pySpaceB
    let r2 := r.dropWhile pySpaceB
    match [strLit "days", strLit "day", strLit "weeks", strLit "week",
           strLit "months", strLit "month", strLit "hours",
           strLit "hour"].find? (fun l => ciPrefix l r2) with
    | some l => some (ds ++ sp ++ r2.take l.length, r2.drop l.length)
    | none => none

/-- `', '.join(...)`. -/
def joinComma (parts : List Text) : Text :=
  List.intercalate [44, 32] parts

/-- `extract_requirements`: technology mentions (title-cased), a budget
summary, a timeline summary, then `list(set(...))` modelled as `dedup`
(order-insensitive set semantics; every claim about this list is
order-insensitive). -/
def extract_requirements (text : Text) : List Text :=
  let techs :=
    (tech_patterns.map
      (fun lits => (scanLits lits text.length text).map pyTitle)).flatten
  let budget_matches := scanWith matchBudget text.length text
  let withBudget :=
    techs ++
      (if budget_matches.isEmpty then []
       else [strLit "Budget mentioned: " ++ joinComma budget_matches])
  let timeline_matches := scanWith matchTimeline text.length text
  let withTimeline :=
    withBudget ++
      (if timeline_matches.isEmpty then []
       else [strLit "Timeline: " ++ joinComma timeline_matches])
  withTimeline.dedup

/-! ## Analyzer (`analyze_post`) -/

/-- Python's `max(items, key=lambda x: x[1])`: left fold keeping the first
maximal element. -/
def pickBest (x0 : OpportunityType × ℚ) (xs : List (OpportunityType × ℚ)) :
    OpportunityType × ℚ :=
  xs.foldl (fun best y => if best.2 < y.2 then y else best) x0

/-- All keywords, primary then secondary, in category enumeration order
(the key-indicator compilation loop). -/
def all_keywords : List Text :=
  (keywords.map (fun pr => pr.2.primary ++ pr.2.secondary)).flatten

/-- `analyze_post`, with the one genuinely fallible operation — `max` over
a possibly-empty sequence — modelled as `Option` (`none` would be Python's
`ValueError`). -/
def analyze_postE (post_text : Text) : Option OpportunityScore :=
  let cleaned_text := preprocess_text post_text
  let seeking := detect_help_seeking cleaned_text
  if !seeking.1 then
    some { opportunity_type := .DATA_INTEGRATION
           confidence_score := 0
           urgency_level := .LOW
           key_indicators := []
           extracted_requirements := [] }
  else
    match calculate_opportunity_scores cleaned_text with
    | [] => none
    | x :: xs =>
      let best := pickBest x xs
      let high_scores :=
        ((x :: xs).filter (fun pr => (3 : ℚ)/10 < pr.2)).length
      let opportunity_type :=
        if 1 < high_scores then OpportunityType.MIXED else best.1
      some { opportunity_type := opportunity_type
             confidence_score := best.2
             urgency_level := detect_urgency cleaned_text
             key_indicators :=
               ((seeking.2 ++
                 all_keywords.filter
                   (fun k => strIn k cleaned_text)).dedup).take 10
             extracted_requirements := extract_requirements cleaned_text }

/-- The default non-opportunity verdict returned by the short-circuit. -/
def defaultVerdict : OpportunityScore :=
  { opportunity_type := .DATA_INTEGRATION
    confidence_score := 0
    urgency_level := .LOW
    key_indicators := []
    extracted_requirements := [] }

/-- Total wrapper around `analyze_postE` (the fallback is never used; see
the totality theorem). -/
def analyze_post (post_text : Text) : OpportunityScore :=
  (analyze_postE post_text).getD defaultVerdict

/-! ## Response suggestion generator -/

/-- The static `base_approaches` table (a dedicated list per category). -/
def base_approaches : OpportunityType → List Text
  | .DATA_INTEGRATION =>
    [strLit "Highlight experience with ETL processes and data pipelines",
     strLit "Mention specific integration tools (Zapier, MuleSoft, custom APIs)",
     strLit "Showcase data warehousing and real-time processing capabilities"]
  | .DATA_VISUALIZATION =>
    [strLit "Share portfolio of dashboard examples",
     strLit "Mention expertise in Tableau, Power BI, or custom solutions",
     strLit "Highlight ability to translate business needs into visual insights"]
  | .WEB_DEVELOPMENT =>
    [strLit "Showcase relevant web development portfolio",
     strLit "Mention technology stack expertise (React, Django, etc.)",
     strLit "Emphasize responsive design and user experience"]
  | .APP_DEVELOPMENT =>
    [strLit "Share mobile app portfolio and app store links",
     strLit "Mention cross-platform vs native development capabilities",
     strLit "Highlight user-centric design approach"]
  | .MIXED =>
    [strLit "Emphasize full-stack capabilities across multiple domains",
     strLit "Mention integrated solutions experience",
     strLit "Highlight project management for complex requirements"]

/-- The low-confidence message. -/
def lowConfidenceMsg : Text :=
  strLit "Low confidence opportunity - may not be relevant"

/-- The two urgency-specific extra suggestions, in order. -/
def urgencyExtras : List Text :=
  [strLit "Emphasize quick turnaround and availability",
   strLit "Mention agile development approach"]

/-- `generate_response_suggestions`. -/
def generate_response_suggestions (opportunity : OpportunityScore) :
    List Text :=
  if opportunity.confidence_score < (2 : ℚ)/10 then [lowConfidenceMsg]
  else
    base_approaches opportunity.opportunity_type ++
      (if opportunity.urgency_level = .HIGH ∨
          opportunity.urgency_level = .URGENT then urgencyExtras else [])

/-! ## Characterization lemmas -/

theorem calculate_opportunity_scores_eq (t : Text) :
    calculate_opportunity_scores t =
      [(.DATA_INTEGRATION, score_for di_keywords t),
       (.DATA_VISUALIZATION, score_for dv_keywords t),
       (.WEB_DEVELOPMENT, score_for web_keywords t),
       (.APP_DEVELOPMENT, score_for app_keywords t)] := rfl

theorem analyze_post_shortcircuit {s : Text}
    (h : (detect_help_seeking (preprocess_text s)).1 = false) :
    analyze_post s = defaultVerdict := by
  unfold analyze_post analyze_postE
  simp [h, defaultVerdict]

theorem analyze_post_main {s : Text}
    (h : (detect_help_seeking (preprocess_text s)).1 = true) :
    analyze_post s =
      { opportunity_type :=
          if 1 < ((calculate_opportunity_scores (preprocess_text s)).filter
              (fun pr => (3 : ℚ)/10 < pr.2)).length then .MIXED
          else (pickBest
            (.DATA_INTEGRATION, score_for di_keywords (preprocess_text s))
            [(.DATA_VISUALIZATION, score_for dv_keywords (preprocess_text s)),
             (.WEB_DEVELOPMENT, score_for web_keywords (preprocess_text s)),
             (.APP_DEVELOPMENT,
               score_for app_keywords (preprocess_text s))]).1
        confidence_score := (pickBest
            (.DATA_INTEGRATION, score_for di_keywords (preprocess_text s))
            [(.DATA_VISUALIZATION, score_for dv_keywords (preprocess_text s)),
             (.WEB_DEVELOPMENT, score_for web_keywords (preprocess_text s)),
             (.APP_DEVELOPMENT,
               score_for app_keywords (preprocess_text s))]).2
        urgency_level := detect_urgency (preprocess_text s)
        key_indicators :=
          (((detect_help_seeking (preprocess_text s)).2 ++
            all_keywords.filter
              (fun k => strIn k (preprocess_text s))).dedup).take 10
        extracted_requirements :=
          extract_requirements (preprocess_text s) } := by
  unfold analyze_post analyze_postE
  simp [h, calculate_opportunity_scores_eq]

/-- `max(items, key=...)` over the four scores: the value is the maximum and
the label is the first label attaining it. -/
theorem pickBest_spec (t1 t2 t3 t4 : OpportunityType) (a b c d : ℚ) :
    pickBest (t1, a) [(t2, b), (t3, c), (t4, d)] =
      (if b ≤ a ∧ c ≤ a ∧ d ≤ a then t1
       else if c ≤ b ∧ d ≤ b then t2
       else if d ≤ c then t3 else t4,
       max (max (max a b) c) d) := by
  simp only [pickBest, List.foldl]
  rcases le_or_lt b a with hba | hba
  · rw [if_neg (not_lt.mpr hba), max_eq_left hba]
    rcases le_or_lt c a with hca | hca
    · rw [if_neg (not_lt.mpr hca), max_eq_left hca]
      rcases le_or_lt d a with hda | hda
      · rw [if_neg (not_lt.mpr hda), max_eq_left hda,
          if_pos ⟨hba, hca, hda⟩]
      · rw [if_pos hda, max_eq_right hda.le,
          if_neg (by rintro ⟨-, -, h⟩; exact absurd h (not_le.mpr hda)),
          if_neg (by rintro ⟨-, h⟩; exact absurd h (not_le.mpr (lt_of_le_of_lt hba hda))),
          if_neg (not_le.mpr (lt_of_le_of_lt hca hda))]
    · rw [if_pos hca, max_eq_right hca.le]
      rcases le_or_lt d c with hdc | hdc
      · rw [if_neg (not_lt.mpr hdc), max_eq_left hdc,
          if_neg (by rintro ⟨-, h, -⟩; exact absurd h (not_le.mpr hca)),
          if_neg (by rintro ⟨h, -⟩; exact absurd h (not_le.mpr (lt_of_le_of_lt hba hca))),
          if_pos hdc]
      · rw [if_pos hdc, max_eq_right hdc.le,
          if_neg (by rintro ⟨-, -, h⟩; exact absurd h (not_le.mpr (lt_of_le_of_lt hca.le hdc))),
          if_neg (by rintro ⟨-, h⟩; exact absurd h (not_le.mpr (lt_of_le_of_lt (hba.trans hca.le) hdc))),
          if_neg (not_le.mpr hdc)]
  · rw [if_pos hba, max_eq_right hba.le]
    rcases le_or_lt c b with hcb | hcb
    · rw [if_neg (not_lt.mpr hcb), max_eq_left hcb]
      rcases le_or_lt d b with hdb | hdb
      · rw [if_neg (not_lt.mpr hdb), max_eq_left hdb,
          if_neg (by rintro ⟨h, -⟩; exact absurd h (not_le.mpr hba)),
          if_pos ⟨hcb, hdb⟩]
      · rw [if_pos hdb, max_eq_right hdb.le,
          if_neg (by rintro ⟨-, -, h⟩; exact absurd h (not_le.mpr (lt_of_le_of_lt hba.le hdb))),
          if_neg (by rintro ⟨-, h⟩; exact absurd h (not_le.mpr hdb)),
          if_neg (not_le.mpr (lt_of_le_of_lt hcb hdb))]
    · rw [if_pos hcb, max_eq_right hcb.le]
      rcases le_or_lt d c with hdc | hdc
      · rw [if_neg (not_lt.mpr hdc), max_eq_left hdc,
          if_neg (by rintro ⟨h, -⟩; exact absurd h (not_le.mpr hba)),
          if_neg (by rintro ⟨h, -⟩; exact absurd h (not_le.mpr hcb)),
          if_pos hdc]
      · rw [if_pos hdc, max_eq_right hdc.le,
          if_neg (by rintro ⟨h, -⟩; exact absurd h (not_le.mpr hba)),
          if_neg (by rintro ⟨-, h⟩; exact absurd h (not_le.mpr (hcb.trans hdc))),
          if_neg (not_le.mpr hdc)]

/-! ## Claim C1 -/

/-- C1: for every input whose normalized form contains none of the
help-seeking phrases, `analyze_post` short-circuits to the default verdict:
category `DATA_INTEGRATION` (the first enumerated category), confidence
exactly 0, urgency `LOW`, empty key indicators, empty requirements. -/
theorem c1_no_help_short_circuit (s : Text)
    (h : ∀ p ∈ help_indicators, strIn p (preprocess_text s) = false) :
    analyze_post s =
      { opportunity_type := .DATA_INTEGRATION
        confidence_score := 0
        urgency_level := .LOW
        key_indicators := []
        extracted_requirements := [] } := by
  have hf : help_indicators.filter
      (fun ind => strIn ind (preprocess_text s)) = [] :=
    List.filter_eq_nil_iff.mpr (fun a ha => by simp [h a ha])
  have hd : (detect_help_seeking (preprocess_text s)).1 = false := by
    simp [detect_help_seeking, hf]
  exact analyze_post_shortcircuit hd

theorem c1_no_help_short_circuit_witness :
    (∀ p ∈ help_indicators,
      strIn p (preprocess_text (strLit "good morning sunshine")) = false) ∧
    analyze_post (strLit "good morning sunshine") =
      { opportunity_type := .DATA_INTEGRATION
        confidence_score := 0
        urgency_level := .LOW
        key_indicators := []
        extracted_requirements := [] } :=
  ⟨by with_unfolding_all decide,
   c1_no_help_short_circuit _ (by with_unfolding_all decide)⟩

/-! ## Claim C8 -/

/-- C8: `analyze_post` is total.  The one fallible operation in the source
(`max` over a possibly-empty sequence, which raises `ValueError` on empty
input) is modelled by the `Option` in `analyze_postE`; for every input the
result is `some`, i.e. no error branch is reachable. -/
theorem c8_analyze_total (s : Text) :
    analyze_postE s = some (analyze_post s) := by
  unfold analyze_post analyze_postE
  cases h : (detect_help_seeking (preprocess_text s)).1 <;>
    simp [h, calculate_opportunity_scores_eq]

/-! ## Claim C3 -/

/-- The scoring formula as worded by the spec: each keyword counted at most
once by substring containment, confidence
`min(1.0, (2*primary_matches + secondary_matches) / (2*|primary| + |secondary|))`,
and `0.0` when the denominator is zero. -/
def spec_score (kw : KeywordSet) (text : Text) : ℚ :=
  let denom := 2 * kw.primary.length + kw.secondary.length
  if denom = 0 then 0
  else
    min 1 (((2 * kw.primary.countP (fun k => strIn k text) +
      kw.secondary.countP (fun k => strIn k text) : ℕ) : ℚ) / (denom : ℚ))

theorem score_for_eq_spec (kw : KeywordSet) (t : Text) :
    score_for kw t = spec_score kw t := by
  unfold score_for spec_score
  rcases Nat.eq_zero_or_pos (kw.primary.length * 2 + kw.secondary.length)
    with h0 | h0
  · rw [if_neg (by omega), if_pos (by omega)]
  · rw [if_pos h0, if_neg (by omega)]
    rw [min_comm]
    congr 2
    · push_cast; ring
    · push_cast; ring

theorem score_for_bounds (kw : KeywordSet) (t : Text) :
    0 ≤ score_for kw t ∧ score_for kw t ≤ 1 := by
  simp only [score_for]
  split
  · constructor
    · apply le_min
      · apply div_nonneg (Nat.cast_nonneg _) (Nat.cast_nonneg _)
      · norm_num
    · exact min_le_right _ _
  · norm_num

/-- C3: `calculate_opportunity_scores` maps exactly the four base
categories (never `MIXED`) to the spec's clamped weighted-match ratio, each
score lies in `[0, 1]`, and consequently so does every confidence that
`analyze_post` returns. -/
theorem c3_score_range (t s : Text) :
    ((calculate_opportunity_scores t).map Prod.fst =
      [.DATA_INTEGRATION, .DATA_VISUALIZATION, .WEB_DEVELOPMENT,
       .APP_DEVELOPMENT]) ∧
    calculate_opportunity_scores t =
      [(.DATA_INTEGRATION, spec_score di_keywords t),
       (.DATA_VISUALIZATION, spec_score dv_keywords t),
       (.WEB_DEVELOPMENT, spec_score web_keywords t),
       (.APP_DEVELOPMENT, spec_score app_keywords t)] ∧
    (∀ pr ∈ calculate_opportunity_scores t, 0 ≤ pr.2 ∧ pr.2 ≤ 1) ∧
    0 ≤ (analyze_post s).confidence_score ∧
    (analyze_post s).confidence_score ≤ 1 := by
  refine ⟨rfl, ?_, ?_, ?_, ?_⟩
  · rw [calculate_opportunity_scores_eq]
    simp [score_for_eq_spec]
  · intro pr hpr
    rw [calculate_opportunity_scores_eq] at hpr
    simp only [List.mem_cons, List.not_mem_nil, or_false] at hpr
    rcases hpr with h | h | h | h <;> rw [h] <;> exact score_for_bounds _ _
  all_goals
    cases hb : (detect_help_seeking (preprocess_text s)).1
    case false =>
      rw [analyze_post_shortcircuit hb]
      simp [defaultVerdict]
    case true =>
      rw [analyze_post_main hb]
      simp only [pickBest_spec]
      obtain ⟨h1l, h1r⟩ := score_for_bounds di_keywords (preprocess_text s)
      obtain ⟨h2l, h2r⟩ := score_for_bounds dv_keywords (preprocess_text s)
      obtain ⟨h3l, h3r⟩ := score_for_bounds web_keywords (preprocess_text s)
      obtain ⟨h4l, h4r⟩ := score_for_bounds app_keywords (preprocess_text s)
      first
      | exact le_trans h1l (le_trans (le_max_left _ _)
          (le_trans (le_max_left _ _) (le_max_left _ _)))
      | exact max_le (max_le (max_le h1r h2r) h3r) h4r

theorem c3_score_range_witness :
    ((.DATA_INTEGRATION, (2 : ℚ)/27) ∈
      calculate_opportunity_scores (strLit "etl")) ∧
    (0 ≤ (2 : ℚ)/27 ∧ (2 : ℚ)/27 ≤ 1) :=
  ⟨by with_unfolding_all decide,
   (c3_score_range (strLit "etl") (strLit "etl")).2.2.1
     (.DATA_INTEGRATION, (2 : ℚ)/27) (by with_unfolding_all decide)⟩

set_option maxRecDepth 100000

/-! ## Claim C2 -/

/-- The mixed-rule test input: strong data-integration and
data-visualization signals (scores 11/27 and 10/31, both above 0.3). -/
def c2post : Text :=
  strLit "looking for data integration data pipeline etl data migration api integration connect systems data visualization dashboard reporting analytics charts"

/-- C2: on the help-seeking path, if strictly more than one base category
scores above 0.3 the returned category is `MIXED` and the confidence is the
maximum base-category confidence; otherwise the category is the first base
category of maximal confidence (enumeration-order tie-break). -/
theorem c2_mixed_rule (s : Text)
    (h : (detect_help_seeking (preprocess_text s)).1 = true) :
    (1 < ((calculate_opportunity_scores (preprocess_text s)).filter
        (fun pr => (3 : ℚ)/10 < pr.2)).length →
      (analyze_post s).opportunity_type = .MIXED ∧
      (analyze_post s).confidence_score =
        max (max (max (score_for di_keywords (preprocess_text s))
            (score_for dv_keywords (preprocess_text s)))
          (score_for web_keywords (preprocess_text s)))
          (score_for app_keywords (preprocess_text s))) ∧
    (¬ 1 < ((calculate_opportunity_scores (preprocess_text s)).filter
        (fun pr => (3 : ℚ)/10 < pr.2)).length →
      (analyze_post s).opportunity_type =
        (if score_for dv_keywords (preprocess_text s) ≤
              score_for di_keywords (preprocess_text s) ∧
            score_for web_keywords (preprocess_text s) ≤
              score_for di_keywords (preprocess_text s) ∧
            score_for app_keywords (preprocess_text s) ≤
              score_for di_keywords (preprocess_text s) then
          OpportunityType.DATA_INTEGRATION
         else if score_for web_keywords (preprocess_text s) ≤
              score_for dv_keywords (preprocess_text s) ∧
            score_for app_keywords (preprocess_text s) ≤
              score_for dv_keywords (preprocess_text s) then
          OpportunityType.DATA_VISUALIZATION
         else if score_for app_keywords (preprocess_text s) ≤
              score_for web_keywords (preprocess_text s) then
          OpportunityType.WEB_DEVELOPMENT
         else OpportunityType.APP_DEVELOPMENT) ∧
      (analyze_post s).confidence_score =
        max (max (max (score_for di_keywords (preprocess_text s))
            (score_for dv_keywords (preprocess_text s)))
          (score_for web_keywords (preprocess_text s)))
          (score_for app_keywords (preprocess_text s))) := by
  rw [analyze_post_main h]
  simp only [pickBest_spec]
  constructor
  · intro hc
    exact ⟨by simp [hc], trivial⟩
  · intro hc
    exact ⟨by simp [hc], trivial⟩

theorem c2_mixed_rule_witness :
    (analyze_post c2post).opportunity_type = .MIXED ∧
    (analyze_post c2post).confidence_score = 11/27 := by
  have h := (c2_mixed_rule c2post (by with_unfolding_all decide)).1
    (by with_unfolding_all decide)
  refine ⟨h.1, ?_⟩
  rw [h.2]
  with_unfolding_all decide

/-! ## Claim C4 -/

theorem any_perm {l1 l2 : List Text} (hp : l1.Perm l2) (f : Text → Bool) :
    l1.any f = l2.any f := by
  cases h2 : l2.any f
  · rw [List.any_eq_false] at h2 ⊢
    exact fun x hx => h2 x (hp.mem_iff.mp hx)
  · rw [List.any_eq_true] at h2 ⊢
    obtain ⟨x, hx, hfx⟩ := h2
    exact ⟨x, hp.mem_iff.mpr hx, hfx⟩

theorem detect_urgency_table_eq (u v m l : List Text) (t : Text) :
    detect_urgency_table [(.URGENT, u), (.HIGH, v), (.MEDIUM, m), (.LOW, l)]
        t =
      (if u.any (fun ind => strIn ind t) then .URGENT
       else if v.any (fun ind => strIn ind t) then .HIGH
       else if m.any (fun ind => strIn ind t) then .MEDIUM
       else if l.any (fun ind => strIn ind t) then .LOW
       else .MEDIUM) := by
  unfold detect_urgency_table
  cases hu : u.any (fun ind => strIn ind t) <;>
    cases hv : v.any (fun ind => strIn ind t) <;>
      cases hm : m.any (fun ind => strIn ind t) <;>
        cases hl : l.any (fun ind => strIn ind t) <;>
          simp [List.find?, hu, hv, hm, hl]

/-- C4: `detect_urgency` returns the tier of the first lexicon, in priority
order urgent → high → medium → low, containing a phrase present in the
text; the result is invariant under permuting the phrases inside each tier;
with no match anywhere it defaults to `MEDIUM`; and a text matching both an
urgent-tier and a low-tier phrase yields `URGENT`. -/
theorem c4_urgency_priority (t : Text) (u v m l : List Text) :
    (detect_urgency t = .URGENT ↔
      urgent_list.any (fun ind => strIn ind t) = true) ∧
    (detect_urgency t = .HIGH ↔
      (urgent_list.any (fun ind => strIn ind t) = false ∧
       high_list.any (fun ind => strIn ind t) = true)) ∧
    (detect_urgency t = .LOW ↔
      (urgent_list.any (fun ind => strIn ind t) = false ∧
       high_list.any (fun ind => strIn ind t) = false ∧
       medium_list.any (fun ind => strIn ind t) = false ∧
       low_list.any (fun ind => strIn ind t) = true)) ∧
    (detect_urgency t = .MEDIUM ↔
      (urgent_list.any (fun ind => strIn ind t) = false ∧
       high_list.any (fun ind => strIn ind t) = false ∧
       (medium_list.any (fun ind => strIn ind t) = true ∨
        low_list.any (fun ind => strIn ind t) = false))) ∧
    (urgent_list.any (fun ind => strIn ind t) = true →
      low_list.any (fun ind => strIn ind t) = true →
      detect_urgency t = .URGENT) ∧
    (u.Perm urgent_list → v.Perm high_list → m.Perm medium_list →
      l.Perm low_list →
      detect_urgency_table [(.URGENT, u), (.HIGH, v), (.MEDIUM, m),
        (.LOW, l)] t = detect_urgency t) := by
  have key : detect_urgency t =
      (if urgent_list.any (fun ind => strIn ind t) then .URGENT
       else if high_list.any (fun ind => strIn ind t) then .HIGH
       else if medium_list.any (fun ind => strIn ind t) then .MEDIUM
       else if low_list.any (fun ind => strIn ind t) then .LOW
       else .MEDIUM) :=
    detect_urgency_table_eq urgent_list high_list medium_list low_list t
  refine ⟨?_, ?_, ?_, ?_, ?_, ?_⟩
  · rw [key]
    cases hu : urgent_list.any (fun ind => strIn ind t) <;>
      cases hv : high_list.any (fun ind => strIn ind t) <;>
        cases hm : medium_list.any (fun ind => strIn ind t) <;>
          cases hl : low_list.any (fun ind => strIn ind t) <;> simp
  · rw [key]
    cases hu : urgent_list.any (fun ind => strIn ind t) <;>
      cases hv : high_list.any (fun ind => strIn ind t) <;>
        cases hm : medium_list.any (fun ind => strIn ind t) <;>
          cases hl : low_list.any (fun ind => strIn ind t) <;> simp
  · rw [key]
    cases hu : urgent_list.any (fun ind => strIn ind t) <;>
      cases hv : high_list.any (fun ind => strIn ind t) <;>
        cases hm : medium_list.any (fun ind => strIn ind t) <;>
          cases hl : low_list.any (fun ind => strIn ind t) <;> simp
  · rw [key]
    cases hu : urgent_list.any (fun ind => strIn ind t) <;>
      cases hv : high_list.any (fun ind => strIn ind t) <;>
        cases hm : medium_list.any (fun ind => strIn ind t) <;>
          cases hl : low_list.any (fun ind => strIn ind t) <;> simp
  · intro hu _
    rw [key, if_pos hu]
  · intro hpu hpv hpm hpl
    rw [detect_urgency_table_eq u v m l t, key,
      any_perm hpu (fun ind => strIn ind t),
      any_perm hpv (fun ind => strIn ind t),
      any_perm hpm (fun ind => strIn ind t),
      any_perm hpl (fun ind => strIn ind t)]

theorem c4_urgency_priority_witness :
    detect_urgency_table
        [(.URGENT, [strLit "asap", strLit "urgent", strLit "immediately",
           strLit "rush", strLit "emergency"]),
         (.HIGH, [strLit "quickly", strLit "soon", strLit "fast",
           strLit "priority", strLit "deadline"]),
         (.MEDIUM, [strLit "few weeks", strLit "next month",
           strLit "planning", strLit "upcoming"]),
         (.LOW, [strLit "eventually", strLit "future", strLit "considering",
           strLit "thinking about"])] (strLit "urgent but maybe future") =
      detect_urgency (strLit "urgent but maybe future") ∧
    detect_urgency (strLit "urgent but maybe future") = .URGENT := by
  have h := c4_urgency_priority (strLit "urgent but maybe future")
    [strLit "asap", strLit "urgent", strLit "immediately", strLit "rush",
     strLit "emergency"]
    [strLit "quickly", strLit "soon", strLit "fast", strLit "priority",
     strLit "deadline"]
    [strLit "few weeks", strLit "next month", strLit "planning",
     strLit "upcoming"]
    [strLit "eventually", strLit "future", strLit "considering",
     strLit "thinking about"]
  exact ⟨h.2.2.2.2.2 (by decide) (by decide) (by decide) (by decide),
    h.2.2.2.2.1 (by decide) (by decide)⟩

/-! ## Claim C5 -/

/-- C5: `generate_response_suggestions` returns the single low-confidence
message exactly when confidence < 0.2 (so 0.19 qualifies and 0.2 does not);
otherwise it returns the category's 3 base suggestions (every category,
`MIXED` included, has exactly 3) followed by exactly the two fixed extras
iff urgency is `HIGH` or `URGENT`, in that order. -/
theorem c5_suggestion_rules (o : OpportunityScore) :
    (generate_response_suggestions o = [lowConfidenceMsg] ↔
      o.confidence_score < (2 : ℚ)/10) ∧
    ((2 : ℚ)/10 ≤ o.confidence_score →
      generate_response_suggestions o =
        base_approaches o.opportunity_type ++
          (if o.urgency_level = .HIGH ∨ o.urgency_level = .URGENT then
            urgencyExtras else [])) ∧
    (∀ ty, (base_approaches ty).length = 3) ∧
    (o.confidence_score = 19/100 →
      generate_response_suggestions o = [lowConfidenceMsg]) ∧
    (o.confidence_score = 2/10 →
      generate_response_suggestions o =
        base_approaches o.opportunity_type ++
          (if o.urgency_level = .HIGH ∨ o.urgency_level = .URGENT then
            urgencyExtras else [])) := by
  have hlen : ∀ ty, (base_approaches ty).length = 3 := by
    intro ty; cases ty <;> rfl
  unfold generate_response_suggestions
  by_cases hc : o.confidence_score < (2 : ℚ)/10
  · rw [if_pos hc]
    refine ⟨by simp [hc], fun hle => absurd hc (not_lt.mpr hle), hlen,
      fun _ => rfl, fun he => absurd hc (by rw [he]; norm_num)⟩
  · rw [if_neg hc]
    refine ⟨⟨fun heq => ?_, fun hcc => absurd hcc hc⟩, fun _ => rfl, hlen,
      fun he => absurd (he ▸ (by norm_num : (19 : ℚ)/100 < 2/10) :
        o.confidence_score < (2 : ℚ)/10) hc,
      fun _ => rfl⟩
    exfalso
    have h3 := congrArg List.length heq
    rw [List.length_append, hlen] at h3
    simp only [List.length_cons, List.length_nil] at h3
    omega

theorem c5_suggestion_rules_witness :
    generate_response_suggestions
      { opportunity_type := .DATA_INTEGRATION, confidence_score := 19/100,
        urgency_level := .LOW, key_indicators := [],
        extracted_requirements := [] } = [lowConfidenceMsg] ∧
    generate_response_suggestions
      { opportunity_type := .DATA_INTEGRATION, confidence_score := 2/10,
        urgency_level := .HIGH, key_indicators := [],
        extracted_requirements := [] } =
      base_approaches .DATA_INTEGRATION ++ urgencyExtras := by
  constructor
  · exact (c5_suggestion_rules _).2.2.2.1 rfl
  · have h := (c5_suggestion_rules
      { opportunity_type := .DATA_INTEGRATION, confidence_score := 2/10,
        urgency_level := .HIGH, key_indicators := [],
        extracted_requirements := [] }).2.2.2.2 rfl
    simpa using h

/-! ## Claim C9 -/

/-- C9: every verdict's key-indicator list is duplicate-free, has at most
10 entries, and each entry is a help-seeking phrase or a category keyword
(primary or secondary, any category) occurring as a substring of the
normalized text; the extracted-requirements list is duplicate-free. -/
theorem c9_indicator_invariants (s : Text) :
    (analyze_post s).key_indicators.Nodup ∧
    (analyze_post s).key_indicators.length ≤ 10 ∧
    (∀ k ∈ (analyze_post s).key_indicators,
      (k ∈ help_indicators ∨ k ∈ all_keywords) ∧
        strIn k (preprocess_text s) = true) ∧
    (analyze_post s).extracted_requirements.Nodup := by
  cases hb : (detect_help_seeking (preprocess_text s)).1
  · rw [analyze_post_shortcircuit hb]
    simp [defaultVerdict]
  · rw [analyze_post_main hb]
    refine ⟨?_, ?_, ?_, ?_⟩
    · exact List.Nodup.sublist (List.take_sublist _ _) (List.nodup_dedup _)
    · exact List.length_take_le 10 _
    · intro k hk
      have hk2 := List.take_subset _ _ hk
      rw [List.mem_dedup] at hk2
      rcases List.mem_append.mp hk2 with hk3 | hk3
      · simp only [detect_help_seeking] at hk3
        rw [List.mem_filter] at hk3
        exact ⟨Or.inl hk3.1, hk3.2⟩
      · rw [List.mem_filter] at hk3
        exact ⟨Or.inr hk3.1, hk3.2⟩
    · simp only [extract_requirements]
      exact List.nodup_dedup _

theorem c9_indicator_invariants_witness :
    (analyze_post (strLit "seeking etl")).key_indicators.Nodup ∧
    ((strLit "seeking" ∈ help_indicators ∨
       strLit "seeking" ∈ all_keywords) ∧
      strIn (strLit "seeking")
        (preprocess_text (strLit "seeking etl")) = true) := by
  have h := c9_indicator_invariants (strLit "seeking etl")
  exact ⟨h.1, h.2.2.1 (strLit "seeking") (by with_unfolding_all decide)⟩

/-! ## Claim C10 -/

/-- C10: the key-indicator list is empty exactly when no help-seeking
phrase occurs in the normalized text; hence zero confidence alone does not
mean "non-opportunity": the input "seeking urgent" contains a help phrase
but no category keyword, and analyzes to confidence 0 with a non-empty
indicator list and urgency `URGENT` (not `LOW`). -/
theorem c10_empty_indicators_iff (s : Text) :
    ((analyze_post s).key_indicators = [] ↔
      ∀ p ∈ help_indicators, strIn p (preprocess_text s) = false) ∧
    ((analyze_post (strLit "seeking urgent")).confidence_score = 0 ∧
      (analyze_post (strLit "seeking urgent")).key_indicators ≠ [] ∧
      (analyze_post (strLit "seeking urgent")).urgency_level = .URGENT ∧
      (∃ p ∈ help_indicators,
        strIn p (preprocess_text (strLit "seeking urgent")) = true) ∧
      (∀ k ∈ all_keywords,
        strIn k (preprocess_text (strLit "seeking urgent")) = false)) := by
  constructor
  · cases hb : (detect_help_seeking (preprocess_text s)).1
    · rw [analyze_post_shortcircuit hb]
      simp only [detect_help_seeking, decide_eq_false_iff_not,
        not_lt, Nat.le_zero, List.length_eq_zero] at hb
      simp only [defaultVerdict, true_iff]
      intro p hp
      have := List.filter_eq_nil_iff.mp hb p hp
      simpa using this
    · rw [analyze_post_main hb]
      have hne : (detect_help_seeking (preprocess_text s)).2 ≠ [] := by
        simp only [detect_help_seeking, decide_eq_true_eq,
          List.length_pos] at hb ⊢
        exact hb
      constructor
      · intro hempty
        exfalso
        obtain ⟨k, hk⟩ := List.exists_mem_of_ne_nil _ hne
        have hkd : k ∈ (((detect_help_seeking (preprocess_text s)).2 ++
            all_keywords.filter
              (fun kk => strIn kk (preprocess_text s))).dedup) :=
          List.mem_dedup.mpr (List.mem_append.mpr (Or.inl hk))
        rw [List.take_eq_nil_iff] at hempty
        rcases hempty with h10 | hnil
        · exact absurd h10 (by norm_num)
        · rw [hnil] at hkd
          exact absurd hkd (List.not_mem_nil k)
      · intro hall
        exfalso
        apply hne
        simp only [detect_help_seeking]
        exact List.filter_eq_nil_iff.mpr (fun a ha => by simp [hall a ha])
  · refine ⟨by with_unfolding_all decide, by with_unfolding_all decide,
      by with_unfolding_all decide,
      ⟨strLit "seeking", by decide, by with_unfolding_all decide⟩,
      by with_unfolding_all decide⟩

theorem c10_empty_indicators_iff_witness :
    (analyze_post (strLit "hello there")).key_indicators = [] :=
  ((c10_empty_indicators_iff (strLit "hello there")).1).mpr
    (by with_unfolding_all decide)

/-! ## Claim C7 -/

/-- The first test post from `main` (`test_posts[0]`). -/
def c7post : Text :=
  strLit "Looking for a data visualization expert to create interactive dashboards for our sales team. Need someone with Tableau or Power BI experience. Budget around $5k, timeline 3 weeks."

/-- C7 fails on the code: for the example post the confidence is 6/31
(about 0.194), not greater than 0.3, and no extracted requirement contains
"5k" — the budget regex `\$[\d,]+(?:\.\d{2})?` stops before the `k`, so the
budget summary is "Budget mentioned: $5". -/
theorem c7_example_post_counterexample :
    ¬ ((3 : ℚ)/10 < (analyze_post c7post).confidence_score) ∧
    (∀ r ∈ (analyze_post c7post).extracted_requirements,
      strIn (strLit "5k") r = false) := by
  with_unfolding_all decide

/-- C7 amended: for the example post, `analyze_post` returns category
`DATA_VISUALIZATION`, confidence exactly 6/31 (positive but below 0.3),
urgency `MEDIUM`, and requirements containing the budget summary
"Budget mentioned: $5" and a timeline summary containing "3 weeks". -/
theorem c7_example_post_amended :
    (analyze_post c7post).opportunity_type = .DATA_VISUALIZATION ∧
    (analyze_post c7post).confidence_score = 6/31 ∧
    0 < (analyze_post c7post).confidence_score ∧
    (analyze_post c7post).urgency_level = .MEDIUM ∧
    strLit "Budget mentioned: $5" ∈
      (analyze_post c7post).extracted_requirements ∧
    (∃ r ∈ (analyze_post c7post).extracted_requirements,
      strIn (strLit "3 weeks") r = true) := by
  with_unfolding_all decide

/-! ## Claim C6 -/

/-- C6 fails on the code: URL removal runs after whitespace collapsing, so
deleting `http://b` from `a http://b b` leaves the two spaces around it
adjacent, and only a second pass collapses them. -/
theorem c6_idempotent_counterexample :
    preprocess_text (preprocess_text (strLit "a http://b b")) ≠
      preprocess_text (strLit "a http://b b") := by decide

theorem strIn_iff_infix (n : Text) : ∀ h : Text,
    (strIn n h = true ↔ n <:+: h) := by
  intro h
  induction h with
  | nil => simp [strIn, List.isEmpty_iff]
  | cons c rest ih =>
    simp [strIn, List.infix_cons_iff, ih, List.isPrefixOf_iff_prefix]

theorem tryUrl_eq_none_of_no_http {t : Text}
    (h : ¬ (strLit "http" <+: t)) : tryUrl t = none := by
  have h8 : ¬ ((strLit "https://").isPrefixOf t = true) := fun hp =>
    h ((by decide : strLit "http" <+: strLit "https://").trans
      (List.isPrefixOf_iff_prefix.mp hp))
  have h7 : ¬ ((strLit "http://").isPrefixOf t = true) := fun hp =>
    h ((by decide : strLit "http" <+: strLit "http://").trans
      (List.isPrefixOf_iff_prefix.mp hp))
  unfold tryUrl
  rw [if_neg h8, if_neg h7]

theorem removeUrlsGo_eq_self {t : Text} (fuel : Nat)
    (h : ¬ (strLit "http" <:+: t)) : removeUrlsGo fuel t = t := by
  induction fuel generalizing t with
  | zero => rfl
  | succ f ih =>
    cases t with
    | nil => rfl
    | cons c rest =>
      have hnp : ¬ (strLit "http" <+: c :: rest) := fun hp =>
        h hp.isInfix
      simp only [removeUrlsGo, tryUrl_eq_none_of_no_http hnp]
      exact congrArg (c :: ·) (ih (fun hi => h (List.infix_cons hi)))

theorem removeUrls_eq_self {t : Text} (h : ¬ (strLit "http" <:+: t)) :
    removeUrls t = t := removeUrlsGo_eq_self t.length h

theorem removeHash_eq_self {t : Text} (h : (35 : Nat) ∉ t) :
    removeHash t = t := by
  induction t with
  | nil => rfl
  | cons c rest ih =>
    have hc : c ≠ 35 := fun hceq => h (hceq ▸ List.mem_cons_self c rest)
    have hrest : (35 : Nat) ∉ rest := fun hm => h (List.mem_cons_of_mem c hm)
    cases rest with
    | nil => rfl
    | cons d r2 =>
      have hcond : ¬ ((c = 35 : Bool) && wordChar d) = true := by
        simp [hc]
      simp only [removeHash, Bool.and_eq_true, decide_eq_true_eq]
      rw [if_neg (by simpa using hcond)]
      exact congrArg (c :: ·) (ih hrest)

/-- "No two adjacent whitespace characters" as a chain relation. -/
def noTwoWs (a b : Nat) : Prop := pySpaceB a = true → pySpaceB b = false

theorem collapseGo_mem {c : Nat} : ∀ (b : Bool) (t : Text),
    c ∈ collapseGo b t → c = 32 ∨ (c ∈ t ∧ pySpaceB c = false) := by
  intro b t
  induction t generalizing b with
  | nil => intro hmem; simp [collapseGo] at hmem
  | cons a rest ih =>
    intro hmem
    by_cases ha : pySpaceB a = true
    · cases b with
      | true =>
        simp only [collapseGo, ha, if_true] at hmem
        rcases ih true hmem with h32 | ⟨hm, hws⟩
        · exact Or.inl h32
        · exact Or.inr ⟨List.mem_cons_of_mem a hm, hws⟩
      | false =>
        simp only [collapseGo, ha, if_true] at hmem
        rcases List.mem_cons.mp hmem with h32 | hmem2
        · exact Or.inl h32
        · rcases ih true hmem2 with h32 | ⟨hm, hws⟩
          · exact Or.inl h32
          · exact Or.inr ⟨List.mem_cons_of_mem a hm, hws⟩
    · simp only [collapseGo, ha, if_false] at hmem
      rcases List.mem_cons.mp hmem with hca | hmem2
      · exact Or.inr ⟨hca ▸ List.mem_cons_self a rest,
          hca ▸ (by simpa using ha)⟩
      · rcases ih false hmem2 with h32 | ⟨hm, hws⟩
        · exact Or.inl h32
        · exact Or.inr ⟨List.mem_cons_of_mem a hm, hws⟩

theorem collapseGo_chain : ∀ t : Text,
    (List.Chain' noTwoWs (collapseGo true t) ∧
      (∀ c ∈ (collapseGo true t).head?, pySpaceB c = false)) ∧
    List.Chain' noTwoWs (collapseGo false t) := by
  intro t
  induction t with
  | nil => exact ⟨⟨List.chain'_nil, by simp [collapseGo]⟩, List.chain'_nil⟩
  | cons a rest ih =>
    by_cases ha : pySpaceB a = true
    · refine ⟨⟨?_, ?_⟩, ?_⟩
      · simpa only [collapseGo, ha, if_true] using ih.1.1
      · simpa only [collapseGo, ha, if_true] using ih.1.2
      · simp only [collapseGo, ha, if_true]
        exact List.chain'_cons'.mpr
          ⟨fun y hy => fun _ => ih.1.2 y hy, ih.1.1⟩
    · have hmain : List.Chain' noTwoWs (a :: collapseGo false rest) :=
        List.chain'_cons'.mpr
          ⟨fun y _ => fun haws => absurd haws ha, ih.2⟩
      refine ⟨⟨?_, ?_⟩, ?_⟩
      · simpa only [collapseGo, ha, if_false] using hmain
      · have hb : pySpaceB a = false := by simpa using ha
        simp only [collapseGo, hb, Bool.false_eq_true, if_false,
          List.head?_cons]
        intro c hc
        have hca : c = a := by simpa [Option.mem_def, eq_comm] using hc
        rw [hca]
        exact hb
      · simpa only [collapseGo, ha, if_false] using hmain

theorem collapseGo_fix : ∀ t : Text, List.Chain' noTwoWs t →
    (∀ c ∈ t, pySpaceB c = true → c = 32) → collapseGo false t = t := by
  intro t
  induction t with
  | nil => intro _ _; rfl
  | cons a rest ih =>
    intro hchain hall
    by_cases ha : pySpaceB a = true
    · have ha32 : a = 32 := hall a (List.mem_cons_self a rest) ha
      have hhead : ∀ y ∈ rest.head?, pySpaceB y = false :=
        fun y hy => (List.chain'_cons'.mp hchain).1 y hy ha
      simp only [collapseGo, ha, if_true]
      cases rest with
      | nil => simp [collapseGo, ha32]
      | cons d r2 =>
        have hd : pySpaceB d = false := hhead d (by simp)
        have hrest : collapseGo false (d :: r2) = d :: r2 :=
          ih (List.chain'_cons'.mp hchain).2
            (fun c hc hws => hall c (List.mem_cons_of_mem a hc) hws)
        simp only [collapseGo, hd, Bool.false_eq_true, if_false] at hrest ⊢
        rw [ha32]
        exact congrArg (32 :: ·) hrest
    · have hrest : collapseGo false rest = rest :=
        ih (List.chain'_cons'.mp hchain).2
          (fun c hc hws => hall c (List.mem_cons_of_mem a hc) hws)
      simp only [collapseGo, ha, if_false]
      exact congrArg (a :: ·) hrest

theorem dropWhile_idem (p : Nat → Bool) : ∀ l : Text,
    List.dropWhile p (List.dropWhile p l) = List.dropWhile p l := by
  intro l
  induction l with
  | nil => rfl
  | cons a l ih =>
    by_cases hp : p a = true
    · simp [List.dropWhile_cons, hp, ih]
    · simp [List.dropWhile_cons, hp]

theorem dropWhile_prefix_self {p : Nat → Bool} {l₁ l₂ : Text}
    (hpre : l₁ <+: l₂) (h : l₂.dropWhile p = l₂) :
    l₁.dropWhile p = l₁ := by
  rcases hpre with ⟨tl, rfl⟩
  cases l₁ with
  | nil => rfl
  | cons a r =>
    have hpa : p a = false := by
      by_contra hpa
      rw [Bool.not_eq_false] at hpa
      rw [List.cons_append, List.dropWhile_cons, if_pos hpa] at h
      have := congrArg List.length h
      have hle := length_dropWhile_le p (r ++ tl)
      simp only [List.length_cons] at this
      omega
    simp [List.dropWhile_cons, hpa]

theorem pyStrip_isPrefix_drop (t : Text) : pyStrip t <+: t.dropWhile pySpaceB := by
  have h2 : (t.dropWhile pySpaceB).reverse.dropWhile pySpaceB <:+
      (t.dropWhile pySpaceB).reverse := List.dropWhile_suffix pySpaceB
  have h3 : (pyStrip t).reverse <:+ (t.dropWhile pySpaceB).reverse := by
    simpa [pyStrip] using h2
  exact List.reverse_suffix.mp h3

theorem pyStrip_infix (t : Text) : pyStrip t <:+: t :=
  (pyStrip_isPrefix_drop t).isInfix.trans (List.dropWhile_suffix pySpaceB).isInfix

theorem pyStrip_idem (t : Text) : pyStrip (pyStrip t) = pyStrip t := by
  have hu : (t.dropWhile pySpaceB).dropWhile pySpaceB =
      t.dropWhile pySpaceB := dropWhile_idem pySpaceB t
  have h1 : (pyStrip t).dropWhile pySpaceB = pyStrip t :=
    dropWhile_prefix_self (pyStrip_isPrefix_drop t) hu
  have h2 : (pyStrip t).reverse.dropWhile pySpaceB = (pyStrip t).reverse := by
    have : (pyStrip t).reverse =
        (t.dropWhile pySpaceB).reverse.dropWhile pySpaceB := by
      simp [pyStrip]
    rw [this]
    exact dropWhile_idem pySpaceB _
  show (((pyStrip t).dropWhile pySpaceB).reverse.dropWhile
      pySpaceB).reverse = pyStrip t
  rw [h1, h2, List.reverse_reverse]

theorem pyLowerChar_idem (c : Nat) :
    pyLowerChar (pyLowerChar c) = pyLowerChar c := by
  simp only [pyLowerChar]
  split_ifs <;> omega

theorem map_fix {f : Nat → Nat} : ∀ l : Text,
    (∀ c ∈ l, f c = c) → l.map f = l := by
  intro l
  induction l with
  | nil => intro _; rfl
  | cons a r ih =>
    intro h
    rw [List.map_cons, h a (List.mem_cons_self a r),
      ih (fun c hc => h c (List.mem_cons_of_mem a hc))]

theorem collapse_lower_chars {s : Text} {c : Nat}
    (hc : c ∈ collapseWs (pyLower s)) : pyLowerChar c = c := by
  rcases collapseGo_mem false (pyLower s) hc with h32 | ⟨hm, _⟩
  · rw [h32]; rfl
  · rcases List.mem_map.mp hm with ⟨d, _, rfl⟩
    exact pyLowerChar_idem d

/-- C6 amended: `preprocess_text` is idempotent on every input whose
lowercased, whitespace-collapsed form contains no occurrence of "http" and
no `#` character (codepoint 35).  (The unrestricted claim is refuted by
`c6_idempotent_counterexample`.) -/
theorem c6_idempotent_amended (s : Text)
    (h1 : strIn (strLit "http") (collapseWs (pyLower s)) = false)
    (h2 : (35 : Nat) ∉ collapseWs (pyLower s)) :
    preprocess_text (preprocess_text s) = preprocess_text s := by
  have hx_nohttp : ¬ (strLit "http" <:+: collapseWs (pyLower s)) := by
    rw [← strIn_iff_infix]
    simp [h1]
  have hurl : removeUrls (collapseWs (pyLower s)) = collapseWs (pyLower s) :=
    removeUrls_eq_self hx_nohttp
  have hhash : removeHash (collapseWs (pyLower s)) =
      collapseWs (pyLower s) := removeHash_eq_self h2
  have hP : preprocess_text s = pyStrip (collapseWs (pyLower s)) := by
    rw [preprocess_text, hurl, hhash]
  have hyx : pyStrip (collapseWs (pyLower s)) <:+: collapseWs (pyLower s) :=
    pyStrip_infix _
  have hysub : ∀ c ∈ pyStrip (collapseWs (pyLower s)),
      c ∈ collapseWs (pyLower s) :=
    fun c hc => hyx.sublist.subset hc
  have hlower : pyLower (pyStrip (collapseWs (pyLower s))) =
      pyStrip (collapseWs (pyLower s)) :=
    map_fix _ (fun c hc => collapse_lower_chars (hysub c hc))
  have hcollapse : collapseWs (pyStrip (collapseWs (pyLower s))) =
      pyStrip (collapseWs (pyLower s)) := by
    apply collapseGo_fix
    · exact List.Chain'.infix (collapseGo_chain (pyLower s)).2 hyx
    · intro c hc hws
      rcases collapseGo_mem false (pyLower s) (hysub c hc) with h32 | ⟨_, hf⟩
      · exact h32
      · rw [hws] at hf
        exact absurd hf (by simp)
  have hurl2 : removeUrls (pyStrip (collapseWs (pyLower s))) =
      pyStrip (collapseWs (pyLower s)) :=
    removeUrls_eq_self (fun hi => hx_nohttp (hi.trans hyx))
  have hhash2 : removeHash (pyStrip (collapseWs (pyLower s))) =
      pyStrip (collapseWs (pyLower s)) :=
    removeHash_eq_self (fun hm => h2 (hysub _ hm))
  calc preprocess_text (preprocess_text s)
      = pyStrip (removeHash (removeUrls (collapseWs (pyLower
          (pyStrip (collapseWs (pyLower s))))))) := by rw [hP]; rfl
    _ = pyStrip (pyStrip (collapseWs (pyLower s))) := by
        rw [hlower, hcollapse, hurl2, hhash2]
    _ = pyStrip (collapseWs (pyLower s)) := pyStrip_idem _
    _ = preprocess_text s := hP.symm

theorem c6_idempotent_amended_witness :
    (strIn (strLit "http") (collapseWs (pyLower (strLit "Hello  World")))
        = false) ∧
    ((35 : Nat) ∉ collapseWs (pyLower (strLit "Hello  World"))) ∧
    preprocess_text (preprocess_text (strLit "Hello  World")) =
      preprocess_text (strLit "Hello  World") :=
  ⟨by decide, by decide, c6_idempotent_amended _ (by decide) (by decide)⟩
